import Mathlib

/-!
Verification of the type-lattice generator `gen.py`.

The generator derives a compile-time type lattice (named type tags encoded as
bitmasks) from static specification tables and emits a formatted text table.
This file is a shallow embedding of the generation logic: the static tables,
the bit-assignment function `assign_bits`, the type-list builder
`generate_types`, and the record formatting of `write_types`, each translated
directly from the Python source. Python dictionaries are modelled as
association lists where the most recent binding is found first; a Python
`KeyError` on a missing dictionary key is modelled by `Option`, with `none`
standing for the aborted generation.
-/

/-- A named union of component type names (`class UnionSpec`, gen.py lines 16-18). -/
structure UnionSpec where
  name : String
  components : List String
deriving DecidableEq, Repr

/-- A resolved (name, bits) pair (`class Type`, gen.py lines 21-23).
`Type` is reserved in Lean, so the structure is named `Ty`. -/
structure Ty where
  name : String
  bits : Nat
deriving DecidableEq, Repr

/-- Basic types that cannot be subtyped by users (gen.py lines 30-34). -/
def BASIC_FINAL_TYPES : List String := ["Array", "Bool", "Slice"]

/-- Basic types that can be subtyped by users (gen.py lines 38-42). -/
def BASIC_BASE_TYPES : List String := ["Int", "Str", "List"]

/-- The Exact variants (gen.py lines 44-47). -/
def BASIC_EXACT_TYPES : List String :=
  "ObjectExact" :: BASIC_BASE_TYPES.map (fun ty => ty ++ "Exact")

/-- The User variants (gen.py lines 49-52). -/
def BASIC_USER_TYPES : List String :=
  "ObjectUser" :: BASIC_BASE_TYPES.map (fun ty => ty ++ "User")

/-- All pure Python object basic types (gen.py line 54). -/
def BASIC_PYTYPES : List String :=
  BASIC_FINAL_TYPES ++ BASIC_EXACT_TYPES ++ BASIC_USER_TYPES

/-- Signed integer basic types (gen.py lines 56-61). -/
def BASIC_INT_TYPES : List String := ["CInt8", "CInt16", "CInt32", "CInt64"]

/-- Unsigned integer basic types (gen.py lines 63-68). -/
def BASIC_UINT_TYPES : List String := ["CUInt8", "CUInt16", "CUInt32", "CUInt64"]

/-- Runtime-internal primitive basic types (gen.py lines 72-79). -/
def BASIC_PRIMITIVE_TYPES : List String :=
  ["CBool"] ++ BASIC_INT_TYPES ++ BASIC_UINT_TYPES ++ ["CPtr", "CDouble", "Nullptr"]

/-- All basic types, in bit-assignment order (gen.py line 81). -/
def BASIC_TYPES : List String := BASIC_PYTYPES ++ BASIC_PRIMITIVE_TYPES

/-- Predefined unions of exclusively Python types (gen.py lines 86-91). -/
def PYTYPE_UNIONS : List UnionSpec :=
  [⟨"BuiltinExact", BASIC_FINAL_TYPES ++ BASIC_EXACT_TYPES⟩] ++
  BASIC_BASE_TYPES.map (fun ty => ⟨ty, [ty ++ "User", ty ++ "Exact"]⟩) ++
  [⟨"User", BASIC_USER_TYPES⟩, ⟨"Object", BASIC_PYTYPES⟩]

/-- Predefined unions that are not exclusively Python types (gen.py lines 95-102). -/
def OTHER_UNIONS : List UnionSpec :=
  [⟨"Top", BASIC_TYPES⟩,
   ⟨"Bottom", []⟩,
   ⟨"Primitive", BASIC_PRIMITIVE_TYPES⟩,
   ⟨"CSigned", BASIC_INT_TYPES⟩,
   ⟨"CUnsigned", BASIC_UINT_TYPES⟩,
   ⟨"CInt", BASIC_UINT_TYPES ++ BASIC_INT_TYPES⟩]

/-- Python dictionary from names to bitmasks, modelled as an association list
where the most recently inserted binding is found first. -/
abbrev BitMap := List (String × Nat)

/-- Dictionary lookup `bits[t]`: `none` models a `KeyError`. -/
def lookupBits (m : BitMap) (k : String) : Option Nat :=
  (m.find? (fun p => p.1 == k)).map (fun p => p.2)

/-- Dictionary store `bits[ty] = v`: prepending shadows any older binding,
matching Python overwrite semantics under `lookupBits`. -/
def storeBits (m : BitMap) (k : String) (v : Nat) : BitMap := (k, v) :: m

/-- First loop of `assign_bits` (gen.py lines 130-134): walk the basic-type
list, giving the current name the bit `1 <<< bit_idx` and incrementing
`bit_idx`, starting from the given index and dictionary. -/
def assignBasicBits : List String → Nat → BitMap → BitMap × Nat
  | [], idx, m => (m, idx)
  | ty :: rest, idx, m => assignBasicBits rest (idx + 1) (storeBits m ty (1 <<< idx))

/-- Evaluate the list comprehension `[bits[t] for t in components]`: the first
missing key raises, modelled by `none`. -/
def lookupAll (m : BitMap) : List String → Option (List Nat)
  | [] => some []
  | t :: rest =>
    match lookupBits m t, lookupAll m rest with
    | some b, some bs => some (b :: bs)
    | _, _ => none

/-- One union resolution, `reduce(operator.or_, [bits[t] for t in components], 0)`
(gen.py line 137): left fold of bitwise or over the looked-up component
bitmasks, starting from 0. -/
def resolveUnion (m : BitMap) (components : List String) : Option Nat :=
  (lookupAll m components).map (fun bs => bs.foldl (fun acc b => acc ||| b) 0)

/-- Second loop of `assign_bits` (gen.py lines 136-137): resolve each union in
order against the progressively extended dictionary and store its result. -/
def assignUnionBits : BitMap → List UnionSpec → Option BitMap
  | m, [] => some m
  | m, u :: rest =>
    match resolveUnion m u.components with
    | some b => assignUnionBits (storeBits m u.name b) rest
    | none => none

/-- `assign_bits` generalised over the specification tables (gen.py lines
126-139): returns the name-to-bitmask dictionary and the bit count, or `none`
if a union references an undefined component name. -/
def assignBitsGen (basics : List String) (unions : List UnionSpec) :
    Option (BitMap × Nat) :=
  match assignUnionBits (assignBasicBits basics 0 []).1 unions with
  | some m => some (m, (assignBasicBits basics 0 []).2)
  | none => none

/-- `assign_bits()` on the shipped tables (gen.py lines 126-139). -/
def assign_bits : Option (BitMap × Nat) :=
  assignBitsGen BASIC_TYPES (PYTYPE_UNIONS ++ OTHER_UNIONS)

/-- The names receiving Opt variants: the loop domain of the first loop of
`generate_types` (gen.py line 154). -/
def optEligibleNames : List String :=
  BASIC_PYTYPES ++ PYTYPE_UNIONS.map (fun u => u.name)

/-- `generate_types()` (gen.py lines 142-164): for each optional-eligible name
append the pair (T, OptT) where OptT adds the Nullptr bit; then the primitive
basic types and the other-group unions, each as a single entry.  Any failed
dictionary lookup (impossible with the shipped tables, proved below) yields
`none`. -/
def generate_types : Option (List Ty × Nat) :=
  match assign_bits with
  | none => none
  | some (bits, num_bits) =>
    match lookupBits bits "Nullptr" with
    | none => none
    | some nullptr_bit =>
      match lookupAll bits optEligibleNames,
            lookupAll bits BASIC_PRIMITIVE_TYPES,
            lookupAll bits (OTHER_UNIONS.map (fun u => u.name)) with
      | some optBits, some primBits, some otherBits =>
        some
          ((optEligibleNames.zip optBits).foldr
              (fun p acc => ⟨p.1, p.2⟩ :: ⟨"Opt" ++ p.1, p.2 ||| nullptr_bit⟩ :: acc)
              []
            ++ (BASIC_PRIMITIVE_TYPES.zip primBits).map (fun p => Ty.mk p.1 p.2)
            ++ ((OTHER_UNIONS.map (fun u => u.name)).zip otherBits).map
                (fun p => Ty.mk p.1 p.2),
           num_bits)
      | _, _, _ => none

/-- CPython string comparison `s < t`: lexicographic on code points. -/
def pyStrLt : List Char → List Char → Bool
  | [], [] => false
  | [], _ :: _ => true
  | _ :: _, [] => false
  | a :: as, b :: bs =>
    if a.toNat < b.toNat then true
    else if b.toNat < a.toNat then false
    else pyStrLt as bs

/-- Stable insertion of a type into a name-sorted list: placed after every
entry whose name is not greater. -/
def insertTy (t : Ty) : List Ty → List Ty
  | [] => [t]
  | u :: us => if pyStrLt t.name.data u.name.data then t :: u :: us else u :: insertTy t us

/-- `types.sort(key=lambda t: t[0])` (gen.py line 169): a stable sort by name.
Insertion sort is stable, and the names are pairwise distinct (proved below),
so this agrees with CPython timsort. -/
def sortTypes (ts : List Ty) : List Ty :=
  ts.foldl (fun acc t => insertTy t acc) []

/-- Python string formatting `{s:{w}}`: strings are left-justified by default,
so the padding spaces go on the right. -/
def pyStrFmt (s : String) (w : Nat) : String :=
  s ++ String.mk (List.replicate (w - s.length) ' ')

/-- Python numeric formatting `{n:#0{w}x}`: the `0x` marker, then zero padding
up to total width `w`, then the lowercase hex digits. -/
def pyHexFmt (n w : Nat) : String :=
  "0x" ++ String.mk (List.replicate (w - (2 + (Nat.toDigits 16 n).length)) '0')
    ++ String.mk (Nat.toDigits 16 n)

/-- Widest name-plus-comma in the table, `max_ty_len` (gen.py lines 170-174). -/
def maxTyLen (ts : List Ty) : Nat :=
  ts.foldl (fun acc t => max acc (t.name.length + 1)) 0

/-- Width of one hex literal, `math.ceil(math.log(bits + 1, 16)) + 2`
(gen.py line 176).  In exact real arithmetic the ceiling equals the number of
hex digits of `bits` for `bits ≥ 1` and 0 for `bits = 0`; the Python float
computation agrees on every bitmask this generator produces (no produced
value has `bits + 1` a power of 16, where rounding could bite). -/
def hexLitLen (bits : Nat) : Nat :=
  (if bits = 0 then 0 else (Nat.toDigits 16 bits).length) + 2

/-- Widest hex literal in the table, `max_bits_len` (gen.py lines 171-176). -/
def maxBitsLen (ts : List Ty) : Nat :=
  ts.foldl (fun acc t => max acc (hexLitLen t.bits)) 0

/-- One emitted record line (gen.py line 187):
`"  X(" + ty_arg padded to max_ty_len + " " + bits as #0{max_bits_len}x + "UL)"`
where `ty_arg` is the name with a trailing comma. -/
def recordLine (maxT maxB : Nat) (t : Ty) : String :=
  "  X(" ++ pyStrFmt (t.name ++ ",") maxT ++ " " ++ pyHexFmt t.bits maxB ++ "UL)"

/-- Modelled from the spec's words for claim C5, not from the source: the
record line with the name-plus-comma left-padded, i.e. the padding spaces
inserted before the name so the name is right-aligned in its column. -/
def claimRecordLine (maxT maxB : Nat) (t : Ty) : String :=
  "  X(" ++ String.mk (List.replicate (maxT - (t.name.length + 1)) ' ')
    ++ (t.name ++ ",") ++ " " ++ pyHexFmt t.bits maxB ++ "UL)"

/-- The dictionary after the basic-type loop of `assign_bits`. -/
def basicMap : BitMap := (assignBasicBits BASIC_TYPES 0 []).1

/-- The full dictionary produced by `assign_bits` (defaulting to empty on the
impossible error case; `assign_bits` is proved to succeed below). -/
def finalBits : BitMap := (assign_bits.getD ([], 0)).1

/-- The final bitmask of a name in the shipped lattice. -/
def bitsOf (ty : String) : Nat := (lookupBits finalBits ty).getD 0

/-- The union specifications in resolution order (gen.py line 136). -/
def theUnions : List UnionSpec := PYTYPE_UNIONS ++ OTHER_UNIONS

/-- The progressively extended dictionary just before union number `j` is
resolved. -/
def mapBeforeUnion (j : Nat) : BitMap :=
  (assignUnionBits basicMap (theUnions.take j)).getD []

/-- The type list produced by `generate_types` (proved to succeed below). -/
def allTypes : List Ty := (generate_types.getD ([], 0)).1

/-- The bit count produced by `generate_types`, emitted as `kNumTypeBits`. -/
def numTypeBits : Nat := (generate_types.getD ([], 0)).2

/-- The table rows in emission order (gen.py line 169). -/
def sortedTypes : List Ty := sortTypes allTypes

/-- The concrete `max_ty_len` of the emitted table. -/
def tableTyLen : Nat := maxTyLen sortedTypes

/-- The concrete `max_bits_len` of the emitted table. -/
def tableBitsLen : Nat := maxBitsLen sortedTypes

/-- The emitted record lines, in order (gen.py lines 185-188). -/
def recordLines : List String := sortedTypes.map (recordLine tableTyLen tableBitsLen)

/-- The emitted bit-count constant line (gen.py line 192). -/
def kNumTypeBitsLine : String :=
  "constexpr size_t kNumTypeBits = " ++ toString numTypeBits ++ ";"

/-- Specification-side predicate (for claims C7 and C8): every component of
every union is bound in the dictionary at the moment of its lookup, the
dictionary being extended with each union's own result between steps exactly
as in `assign_bits`. -/
def allComponentsDefined : BitMap → List UnionSpec → Bool
  | _, [] => true
  | m, u :: rest =>
    u.components.all (fun c => (lookupBits m c).isSome) &&
    allComponentsDefined (storeBits m u.name ((resolveUnion m u.components).getD 0)) rest

/-- A bitmask with exactly one set bit. -/
def isSingleBit (n : Nat) : Bool := n != 0 && n &&& (n - 1) == 0

/-- The bitmask of an emitted entity, looked up in the generated type list
(`allTypes` also holds the synthesized Opt variants, which are not in the
`assign_bits` dictionary). -/
def emittedBits (name : String) : Nat :=
  ((allTypes.find? (fun t => t.name == name)).map (fun t => t.bits)).getD 0

/-- Claim C1: for the ordered concatenation of all basic type groups, the base
allocator assigns the i-th distinct name the bitmask `1 <<< i`; all basic-type
bitmasks are pairwise distinct single-bit values; and the count of names
assigned equals the reported total bit width, emitted as `kNumTypeBits`. -/
theorem base_allocator_single_bits :
    BASIC_TYPES.Nodup
    ∧ (∀ p ∈ BASIC_TYPES.enum, lookupBits basicMap p.2 = some (1 <<< p.1))
    ∧ (∀ ty ∈ BASIC_TYPES, isSingleBit ((lookupBits basicMap ty).getD 0) = true)
    ∧ (∀ t1 ∈ BASIC_TYPES, ∀ t2 ∈ BASIC_TYPES, t1 ≠ t2 →
        (lookupBits basicMap t1).getD 0 ≠ (lookupBits basicMap t2).getD 0)
    ∧ (assignBasicBits BASIC_TYPES 0 []).2 = BASIC_TYPES.length
    ∧ numTypeBits = BASIC_TYPES.length
    ∧ kNumTypeBitsLine
        = "constexpr size_t kNumTypeBits = " ++ toString BASIC_TYPES.length ++ ";" :=
  ⟨by decide, by decide, by decide, by decide, by decide, by decide, by decide⟩

/-- Claim C2: every union's resolved bitmask equals the bitwise or of its
components' bitmasks looked up in the progressively extended dictionary
(`mapBeforeUnion j` is the state just before union `j` is resolved), and a
union with an empty component list resolves to bitmask 0 (as the shipped
`Bottom` union does). -/
theorem union_resolver_or_fold :
    (∀ p ∈ theUnions.enum,
        lookupBits finalBits p.2.name = resolveUnion (mapBeforeUnion p.1) p.2.components)
    ∧ (∀ m : BitMap, resolveUnion m [] = some 0)
    ∧ bitsOf "Bottom" = 0 :=
  ⟨by decide, fun _ => rfl, by decide⟩

/-- Claim C3: for every pure-Python-object basic type and every object-only
union result `T`, the generator emits an entity named `"Opt" ++ T` whose
bitmask is `bits T ||| bits Nullptr`; and no entity named `"Opt" ++ ty` is
emitted for any raw primitive basic type or other-group union `ty`. -/
theorem opt_variants_exactly_for_object_types :
    (∀ ty ∈ optEligibleNames,
        Ty.mk ("Opt" ++ ty) (bitsOf ty ||| bitsOf "Nullptr") ∈ allTypes)
    ∧ (∀ ty ∈ BASIC_PRIMITIVE_TYPES ++ OTHER_UNIONS.map (fun u => u.name),
        ∀ t ∈ allTypes, t.name ≠ "Opt" ++ ty) :=
  ⟨by decide, by decide⟩

set_option maxRecDepth 8192 in
/-- Claim C4: in the emitted table the entity records appear in strict
lexicographic (code point) order by name, so in particular no two records
share a name. -/
theorem table_strictly_sorted_by_name :
    List.Pairwise (fun a b : Ty => a.name.data < b.name.data) sortedTypes
    ∧ (sortedTypes.map (fun t => t.name)).Nodup :=
  ⟨by decide, by decide⟩

set_option maxRecDepth 8192 in
/-- Claim C5, counterexample: the emitted record for the `Array` entity is not
of the claimed form. `claimRecordLine` renders the record with the
name-plus-comma left-padded (right-aligned) as the claim states, but the
generator left-justifies it, padding on the right. -/
theorem record_line_not_left_padded :
    Ty.mk "Array" 1 ∈ sortedTypes
    ∧ recordLine tableTyLen tableBitsLen (Ty.mk "Array" 1)
        ≠ claimRecordLine tableTyLen tableBitsLen (Ty.mk "Array" 1) :=
  ⟨by decide, by decide⟩

set_option maxRecDepth 8192 in
/-- Claim C5 as amended: every emitted record line is two spaces, the macro
invocation taking the name with a trailing comma padded with spaces on the
right (left-justified) to the widest name-plus-comma in the table, one space,
then the bitmask as a zero-padded hexadecimal literal with an unsigned-long
suffix, padded to the widest such literal in the table. -/
theorem record_line_format :
    ∀ t ∈ sortedTypes,
      recordLine tableTyLen tableBitsLen t
        = "  X(" ++ (t.name ++ ",")
          ++ String.mk (List.replicate (tableTyLen - (t.name.length + 1)) ' ')
          ++ " " ++ "0x"
          ++ String.mk (List.replicate (tableBitsLen - (2 + (Nat.toDigits 16 t.bits).length)) '0')
          ++ String.mk (Nat.toDigits 16 t.bits) ++ "UL)"
      ∧ t.name.length + 1 ≤ tableTyLen
      ∧ 2 + (Nat.toDigits 16 t.bits).length ≤ tableBitsLen := by decide

set_option maxRecDepth 8192 in
/-- Witness for the amended claim C5, at the `Array` record. -/
theorem record_line_format_witness :
    recordLine tableTyLen tableBitsLen (Ty.mk "Array" 1)
      = "  X(" ++ ("Array" ++ ",")
        ++ String.mk (List.replicate (tableTyLen - ("Array".length + 1)) ' ')
        ++ " " ++ "0x"
        ++ String.mk (List.replicate (tableBitsLen - (2 + (Nat.toDigits 16 1).length)) '0')
        ++ String.mk (Nat.toDigits 16 1) ++ "UL)"
    ∧ "Array".length + 1 ≤ tableTyLen
    ∧ 2 + (Nat.toDigits 16 1).length ≤ tableBitsLen :=
  record_line_format (Ty.mk "Array" 1) (by decide)

/-- Claim C6: the distinguished unions satisfy `bits Top = or of every basic
bitmask` (equivalently, all `numTypeBits` used bits set), `bits Bottom = 0`,
and `bits CInt = bits CSigned ||| bits CUnsigned`. -/
theorem distinguished_union_bitmasks :
    bitsOf "Top" = (BASIC_TYPES.map bitsOf).foldl (fun a b => a ||| b) 0
    ∧ bitsOf "Top" = (1 <<< numTypeBits) - 1
    ∧ bitsOf "Bottom" = 0
    ∧ bitsOf "CInt" = (bitsOf "CSigned" ||| bitsOf "CUnsigned") :=
  ⟨by decide, by decide, by decide, by decide⟩

/-- Components of a cons cell are all bound or the comprehension raises:
helper for claim C7. -/
theorem lookupAll_eq_none_of_missing (m : BitMap) (cs : List String)
    (h : cs.all (fun c => (lookupBits m c).isSome) = false) :
    lookupAll m cs = none := by
  induction cs with
  | nil => simp at h
  | cons c rest ih =>
    rw [List.all_cons] at h
    cases hc : lookupBits m c with
    | none => simp [lookupAll, hc]
    | some b =>
      rw [hc] at h
      simp only [Option.isSome_some, Bool.true_and] at h
      simp [lookupAll, hc, ih h]

/-- If some union references a component unbound at the moment of its lookup,
the union loop raises a KeyError, modelled by `none`: helper for claim C7. -/
theorem assignUnionBits_eq_none_of_undefined (m : BitMap) (us : List UnionSpec)
    (h : allComponentsDefined m us = false) :
    assignUnionBits m us = none := by
  induction us generalizing m with
  | nil => simp [allComponentsDefined] at h
  | cons u rest ih =>
    simp only [allComponentsDefined] at h
    cases hall : u.components.all (fun c => (lookupBits m c).isSome) with
    | false =>
      have hla := lookupAll_eq_none_of_missing m u.components hall
      simp [assignUnionBits, resolveUnion, hla]
    | true =>
      rw [hall, Bool.true_and] at h
      cases hres : resolveUnion m u.components with
      | none => simp [assignUnionBits, hres]
      | some b =>
        have hb : (resolveUnion m u.components).getD 0 = b := by rw [hres]; rfl
        rw [hb] at h
        simp [assignUnionBits, hres, ih _ h]

/-- Claim C7: if any union spec references a component name not defined at the
time of its lookup, generation aborts (the KeyError propagates, modelled by
`none`) instead of silently treating the missing component as bitmask 0. -/
theorem generation_aborts_on_undefined_component
    (basics : List String) (unions : List UnionSpec)
    (h : allComponentsDefined (assignBasicBits basics 0 []).1 unions = false) :
    assignBitsGen basics unions = none := by
  simp [assignBitsGen, assignUnionBits_eq_none_of_undefined _ _ h]

/-- Witness for claim C7: a one-basic-type table whose single union references
the undefined name `B` makes generation abort. -/
theorem generation_aborts_witness :
    allComponentsDefined (assignBasicBits ["A"] 0 []).1 [⟨"U", ["B"]⟩] = false
    ∧ assignBitsGen ["A"] [⟨"U", ["B"]⟩] = none :=
  ⟨by decide, generation_aborts_on_undefined_component _ _ (by decide)⟩

/-- Claim C8: with the shipped tables every component of every union is bound
in the dictionary when it is looked up (indeed every component is a basic
type), so `assign_bits` and `generate_types` succeed and the missing-key error
branch is unreachable. -/
theorem shipped_tables_well_formed :
    ((PYTYPE_UNIONS ++ OTHER_UNIONS).all
        (fun u => u.components.all (fun c => BASIC_TYPES.contains c))) = true
    ∧ allComponentsDefined basicMap (PYTYPE_UNIONS ++ OTHER_UNIONS) = true
    ∧ assign_bits.isSome = true
    ∧ generate_types.isSome = true :=
  ⟨by decide, by decide, by decide, by decide⟩

set_option maxRecDepth 8192 in
/-- Claim C9: no optional-eligible type has the Nullptr bit in its own
bitmask, so each OptT bitmask (`bits T ||| bits Nullptr`) is a strict
superset of `bits T`, and T and OptT are distinct entities with distinct
bitmasks. -/
theorem opt_bitmask_strict_superset :
    (∀ ty ∈ optEligibleNames,
        emittedBits ty &&& emittedBits "Nullptr" = 0
        ∧ emittedBits ("Opt" ++ ty) = (emittedBits ty ||| emittedBits "Nullptr")
        ∧ emittedBits ty &&& emittedBits ("Opt" ++ ty) = emittedBits ty
        ∧ emittedBits ty ≠ emittedBits ("Opt" ++ ty)
        ∧ "Opt" ++ ty ≠ ty)
    ∧ emittedBits "Nullptr" = 1 <<< 22 :=
  ⟨by decide, by decide⟩

/-- Claim C10: the Object and Primitive unions partition the lattice top:
their bitmasks or to `bits Top` and share no bit. -/
theorem object_primitive_partition_top :
    (bitsOf "Object" ||| bitsOf "Primitive") = bitsOf "Top"
    ∧ bitsOf "Object" &&& bitsOf "Primitive" = 0 :=
  ⟨by decide, by decide⟩
